import Mathlib

/-!
Verification of the Smart-Apple-Music / InterChord artist-graph core.

The development shallowly embeds the code that the checked claims are about:

* `InterChord.*` — the Swift graph model and builder from
  `InterChord/ViewModels/GraphViewModel.swift` (`ArtistGraph`, `GraphNode`,
  `GraphEdge`, `addNode`, `addEdge`, `markNodeLoaded`, `merge`, `build`,
  `parseYear`, `formatTenure`, `getEarliestMemberYear`, `isFoundingMember`,
  `extractInstruments`).
* `Web.DbClient` — the replica adapter's relationship construction from
  `src/lib/musicbrainz/db-client.ts` (`formatDate`, the `typeMap` /
  `skipTypes` classification and the relationship id construction).
* `Web.DataSource` — the health-cached replica/API router from
  `src/lib/musicbrainz/data-source.ts` (`isDbAvailable` and the shared
  control flow of `searchArtists` / `getArtist` / `getArtistRelationships` /
  `getArtistLifeSpan`).
* `Web.Throttle` — the request throttle; its implementation
  (`src/lib/musicbrainz/client.ts`) is not part of the sources at hand,
  so it is modelled from the specification.
* `Web.Graph` — the multi-level expansion loop from `src/lib/graph/index.ts`
  (`performMultiLevelExpansion`); the graph builder it calls
  (`src/lib/graph/builder.ts`) is likewise modelled from the specification.

Machine integers do not occur on the verified paths (years are small JS
numbers / Swift `Int`s), so numbers are embedded as `Int` / `Nat`.
-/

namespace StringModel

/-- Value of a digit list read in base 10 (helper for the `Int.init?` model). -/
def digitsVal (cs : List Char) : Nat :=
  cs.foldl (fun a c => a * 10 + (c.toNat - 48)) 0

/-- Model of Swift `Int(String)`: an optional sign followed by one or more
decimal digits; anything else yields `nil`. -/
def swiftInt (s : String) : Option Int :=
  match s.data with
  | [] => none
  | c :: cs =>
    if c = '+' then
      if cs ≠ [] ∧ cs.all Char.isDigit then some (digitsVal cs) else none
    else if c = '-' then
      if cs ≠ [] ∧ cs.all Char.isDigit then some (-(digitsVal cs : Int)) else none
    else
      if (c :: cs).all Char.isDigit then some (digitsVal (c :: cs)) else none

/-- First `n` characters of a string (Swift `String.prefix(n)` /
the character-level view used by both codebases). -/
def takeChars (s : String) (n : Nat) : String :=
  ⟨s.data.take n⟩

/-- ASCII lowercasing (model of Swift `lowercased()` / JS `toLowerCase()`;
the strings involved — role attributes and link type names — are ASCII). -/
def lowerString (s : String) : String :=
  ⟨s.data.map Char.toLower⟩

/-- Substring containment (model of Swift `String.contains(_:)`). -/
def hasSubstr (s pat : String) : Bool :=
  s.data.tails.any (fun t => pat.data.isPrefixOf t)

end StringModel

namespace InterChord

open StringModel

/-- Swift `ArtistType` (cases per spec §3 and the model's uses). -/
inductive ArtistType
  | person
  | group
  | other
deriving DecidableEq, Repr

/-- Swift `RelationshipType`. The case list and raw values follow the
spec §3 relationship vocabulary (the Models file is not among the sources);
only `memberOf` is inspected by the verified code. -/
inductive RelationshipType
  | memberOf
  | founderOf
  | collaboration
  | producer
  | influencedBy
  | sideProject
  | touringMember
  | sameLabel
  | sameScene
deriving DecidableEq, Repr

/-- Raw string value of a `RelationshipType` (used in `GraphEdge.id`). -/
def RelationshipType.rawValue : RelationshipType → String
  | .memberOf => "member_of"
  | .founderOf => "founder_of"
  | .collaboration => "collaboration"
  | .producer => "producer"
  | .influencedBy => "influenced_by"
  | .sideProject => "side_project"
  | .touringMember => "touring_member"
  | .sameLabel => "same_label"
  | .sameScene => "same_scene"

/-- Swift `Artist.LifeSpan` (partial dates as strings; Swift `end` is a Lean
keyword and is embedded as `endDate`). -/
structure LifeSpan where
  begin : Option String
  endDate : Option String
  ended : Option Bool
deriving DecidableEq, Repr

/-- Swift `Artist` (the fields read by the graph code). -/
structure Artist where
  id : String
  name : String
  type : Option ArtistType
  country : Option String
  lifeSpan : Option LifeSpan
deriving DecidableEq, Repr

/-- Swift `Relationship` (the fields read by the graph code; Swift `end`
is embedded as `endDate`). -/
structure Relationship where
  type : RelationshipType
  sourceArtistId : String
  targetArtistId : String
  attributes : Option (List String)
  begin : Option String
  endDate : Option String
  ended : Option Bool
deriving DecidableEq, Repr

/-- Swift `GraphNode`. -/
structure GraphNode where
  id : String
  name : String
  type : ArtistType
  isLoaded : Bool
  isRoot : Bool
  isFoundingMember : Bool
  instruments : List String
deriving DecidableEq, Repr

/-- Swift `GraphNode.init(from:isRoot:isFoundingMember:)`. -/
def GraphNode.ofArtist (artist : Artist) (isRoot : Bool) (isFoundingMember : Bool) :
    GraphNode :=
  { id := artist.id
    name := artist.name
    type := artist.type.getD .other
    isLoaded := false
    isRoot := isRoot
    isFoundingMember := isFoundingMember
    instruments := [] }

/-- Swift `GraphEdge`. -/
structure GraphEdge where
  sourceId : String
  targetId : String
  type : RelationshipType
  tenure : Option String
deriving DecidableEq, Repr

/-- Swift `GraphEdge.id`: `"\(sourceId)-\(targetId)-\(type.rawValue)"`.
Note that the period is not part of the identifier. -/
def GraphEdge.id (e : GraphEdge) : String :=
  e.sourceId ++ "-" ++ e.targetId ++ "-" ++ e.type.rawValue

/-- Swift `GraphEdge.init(from:tenure:)`. -/
def GraphEdge.ofRelationship (r : Relationship) (tenure : Option String) : GraphEdge :=
  { sourceId := r.sourceArtistId, targetId := r.targetArtistId
    type := r.type, tenure := tenure }

/-- Swift `ArtistGraph` (the `Set` members are embedded as lists; only their
membership is ever consulted). -/
structure ArtistGraph where
  nodes : List GraphNode
  edges : List GraphEdge
  nodeIds : List String
  edgeIds : List String
deriving DecidableEq, Repr

/-- Swift `ArtistGraph.init()`. -/
def ArtistGraph.empty : ArtistGraph :=
  { nodes := [], edges := [], nodeIds := [], edgeIds := [] }

/-- Swift `ArtistGraph.addNode`: append the node only when its id is new. -/
def ArtistGraph.addNode (g : ArtistGraph) (node : GraphNode) : ArtistGraph :=
  if g.nodeIds.contains node.id then g
  else { g with nodes := g.nodes ++ [node], nodeIds := g.nodeIds ++ [node.id] }

/-- Swift `ArtistGraph.addEdge`: append the edge only when its id is new. -/
def ArtistGraph.addEdge (g : ArtistGraph) (edge : GraphEdge) : ArtistGraph :=
  if g.edgeIds.contains edge.id then g
  else { g with edges := g.edges ++ [edge], edgeIds := g.edgeIds ++ [edge.id] }

/-- Set `isLoaded` on the first node with the given id
(Swift `firstIndex(where:)` followed by the in-place update). -/
def markLoadedFirst : List GraphNode → String → List GraphNode
  | [], _ => []
  | n :: ns, nodeId =>
    if n.id = nodeId then { n with isLoaded := true } :: ns
    else n :: markLoadedFirst ns nodeId

/-- Swift `ArtistGraph.markNodeLoaded`. -/
def ArtistGraph.markNodeLoaded (g : ArtistGraph) (nodeId : String) : ArtistGraph :=
  { g with nodes := markLoadedFirst g.nodes nodeId }

/-- Swift `ArtistGraph.node(withId:)`: first node with the id. -/
def ArtistGraph.node (g : ArtistGraph) (id : String) : Option GraphNode :=
  g.nodes.find? (fun n => n.id = id)

/-- Swift `ArtistGraph.merge(newNodes:newEdges:expandedNodeId:)`. -/
def ArtistGraph.merge (g : ArtistGraph) (newNodes : List GraphNode)
    (newEdges : List GraphEdge) (expandedNodeId : String) : ArtistGraph :=
  let g1 := g.markNodeLoaded expandedNodeId
  let g2 := newNodes.foldl ArtistGraph.addNode g1
  newEdges.foldl ArtistGraph.addEdge g2

/-- Swift `parseYear`: `nil` for a missing or empty date string, otherwise
`Int` applied to the first four characters. -/
def parseYear : Option String → Option Int
  | none => none
  | some s => if s = "" then none else swiftInt (takeChars s 4)

/-- The loop body of Swift `getEarliestMemberYear`: a `memberOf`
relationship with a smaller parsed begin year lowers the minimum. -/
def getEarliestMemberYearStep (earliest : Int) (rel : Relationship) : Int :=
  if rel.type = .memberOf then
    match parseYear rel.begin with
    | some year => if year < earliest then year else earliest
    | none => earliest
  else earliest

/-- Swift `getEarliestMemberYear`: fold the `memberOf` begin years into the
root's begin year (default sentinel 9999), keeping the minimum. -/
def getEarliestMemberYear (relationships : List Relationship)
    (bandStartYear : Option String) : Int :=
  relationships.foldl getEarliestMemberYearStep ((parseYear bandStartYear).getD 9999)

/-- The attribute test inside Swift `isFoundingMember`: some attribute whose
lowercasing contains `"found"`. -/
def Relationship.hasFounderAttr (rel : Relationship) : Bool :=
  match rel.attributes with
  | some attrs => attrs.any (fun a => hasSubstr (lowerString a) "found")
  | none => false

/-- Swift `isFoundingMember(_:earliestYear:)`. -/
def isFoundingMember (rel : Relationship) (earliestYear : Int) : Bool :=
  if rel.type = .memberOf then
    if rel.hasFounderAttr then true
    else
      match parseYear rel.begin with
      | some startYear => startYear = earliestYear
      | none => false
  else false

/-- Swift `formatTenure(begin:end:)`. -/
def formatTenure (begin endDate : Option String) : String :=
  match parseYear begin with
  | none => ""
  | some startYear =>
    match parseYear endDate with
    | some endYear =>
      if startYear = endYear then toString startYear
      else toString startYear ++ "–" ++ toString endYear
    | none => toString startYear ++ "–present"

/-- Swift `extractInstruments`: drop status attributes, keep roles. -/
def extractInstruments (attributes : Option (List String)) : List String :=
  match attributes with
  | none => []
  | some attrs =>
    let nonInstruments := ["founding", "original", "past", "current", "minor"]
    attrs.filter (fun attr =>
      !(nonInstruments.any (fun ni => hasSubstr (lowerString attr) ni)))

/-- Swift `Array.uniqued()`: unique elements preserving first occurrences. -/
def uniquedAux (seen : List String) : List String → List String
  | [] => []
  | x :: xs =>
    if seen.contains x then uniquedAux seen xs
    else x :: uniquedAux (x :: seen) xs

/-- Swift `Array.uniqued()` entry point. -/
def uniqued (l : List String) : List String := uniquedAux [] l

/-- The node built for one related artist inside `ArtistGraph.build`
(the founding check and instrument extraction of the loop body). -/
def buildRelatedNode (relationships : List Relationship) (earliestYear : Int)
    (relatedArtist : Artist) : GraphNode :=
  let isFounder := relationships.any (fun rel =>
    (rel.targetArtistId == relatedArtist.id || rel.sourceArtistId == relatedArtist.id) &&
      isFoundingMember rel earliestYear)
  let instruments :=
    (uniqued (((relationships.filter (fun rel =>
        rel.targetArtistId == relatedArtist.id || rel.sourceArtistId == relatedArtist.id)).map
          (fun rel => extractInstruments rel.attributes)).flatten)).take 3
  { GraphNode.ofArtist relatedArtist false isFounder with instruments := instruments }

/-- Swift `ArtistGraph.build(from:relationships:relatedArtists:)`. -/
def ArtistGraph.build (artist : Artist) (relationships : List Relationship)
    (relatedArtists : List Artist) : ArtistGraph :=
  let rootNode := GraphNode.ofArtist artist true false
  let g0 := ArtistGraph.empty.addNode rootNode
  let earliestYear :=
    getEarliestMemberYear relationships (artist.lifeSpan.bind LifeSpan.begin)
  let g1 := relatedArtists.foldl
    (fun g relatedArtist => g.addNode (buildRelatedNode relationships earliestYear relatedArtist))
    g0
  relationships.foldl
    (fun g rel =>
      let tenure := formatTenure rel.begin rel.endDate
      g.addEdge (GraphEdge.ofRelationship rel (if tenure = "" then none else some tenure)))
    g1

end InterChord

namespace Web

namespace DbClient

open StringModel

/-- A row of the relationship query in `getArtistRelationshipsFromDB`
(`DbRelationship` in `db-client.ts`; date parts are nullable numbers). -/
structure DbRelationship where
  entity0_gid : String
  entity0_name : String
  entity0_type : Option String
  entity0_comment : Option String
  entity1_gid : String
  entity1_name : String
  entity1_type : Option String
  entity1_comment : Option String
  link_type_name : String
  link_type_gid : String
  begin_date_year : Option Int
  begin_date_month : Option Int
  begin_date_day : Option Int
  end_date_year : Option Int
  end_date_month : Option Int
  end_date_day : Option Int
  ended : Bool
deriving DecidableEq, Repr

/-- JS `String(n).padStart(2, '0')` for the month/day columns. -/
def pad2 (n : Int) : String :=
  let s := toString n
  ⟨List.replicate (2 - s.data.length) '0' ++ s.data⟩

/-- `formatDate` from `db-client.ts`. JS truthiness: `null` and `0` are both
falsy, so a zero component behaves like a missing one. -/
def formatDate (year month day : Option Int) : Option String :=
  match year with
  | none => none
  | some y =>
    if y = 0 then none
    else
      match month with
      | none => some (toString y)
      | some m =>
        if m = 0 then some (toString y)
        else
          match day with
          | none => some (toString y ++ "-" ++ pad2 m)
          | some d =>
            if d = 0 then some (toString y ++ "-" ++ pad2 m)
            else some (toString y ++ "-" ++ pad2 m ++ "-" ++ pad2 d)

/-- The `typeMap` literal of `getArtistRelationshipsFromDB`
(link type name, already lowercased, to domain relationship type). -/
def typeMap : List (String × String) :=
  [("member of band", "member_of"),
   ("founder", "founder_of"),
   ("collaboration", "collaboration"),
   ("vocal", "collaboration"),
   ("instrument", "collaboration"),
   ("producer", "producer"),
   ("influenced by", "influenced_by"),
   ("subgroup", "side_project"),
   ("supporting musician", "touring_member")]

/-- The `skipTypes` set of `getArtistRelationshipsFromDB`. -/
def skipTypes : List String := ["tribute", "is person", "named after"]

/-- The TS `ArtistRelationship` record as produced by the replica client
(the relationship type is a string union in TS and is embedded as `String`;
`period.end` is `null` unless the row is `ended`). -/
structure ArtistRelationship where
  id : String
  source : String
  target : String
  type : String
  period_begin : Option String
  period_end : Option String
  direction : String
deriving DecidableEq, Repr

/-- The relationship built from one row in the loop of
`getArtistRelationshipsFromDB` (`typeMap[linkType] || 'collaboration'`,
then the id with the optional `-beginDate` appendage). -/
def mkRelationship (mbid : String) (row : DbRelationship) : ArtistRelationship :=
  let linkType := lowerString row.link_type_name
  let mappedType := (typeMap.lookup linkType).getD "collaboration"
  let beginDate := formatDate row.begin_date_year row.begin_date_month row.begin_date_day
  let periodSfx :=
    match beginDate with
    | some b => "-" ++ b
    | none => ""
  { id := row.entity0_gid ++ "-" ++ mappedType ++ "-" ++ row.entity1_gid ++ periodSfx
    source := row.entity0_gid
    target := row.entity1_gid
    type := mappedType
    period_begin := beginDate
    period_end :=
      if row.ended then formatDate row.end_date_year row.end_date_month row.end_date_day
      else none
    direction := if row.entity0_gid = mbid then "forward" else "backward" }

/-- The `relationships` array built by the row loop of
`getArtistRelationshipsFromDB`: skipped link types are dropped, every other
row pushes exactly one relationship. -/
def relationshipsFromRows (mbid : String) (rows : List DbRelationship) :
    List ArtistRelationship :=
  rows.filterMap (fun row =>
    if skipTypes.contains (lowerString row.link_type_name) then none
    else some (mkRelationship mbid row))

end DbClient

namespace DataSource

/-- `DB_CHECK_INTERVAL_MS` from `data-source.ts`. -/
def DB_CHECK_INTERVAL_MS : Nat := 30000

/-- The module-level health cache of `data-source.ts`
(`dbAvailable : boolean | null`, `lastDbCheck`). -/
structure DSState where
  dbAvailable : Option Bool
  lastDbCheck : Nat
deriving DecidableEq, Repr

/-- `isDbAvailable` from `data-source.ts`, with the wall clock and the probe
result (`testConnection`) passed in. Returns the verdict and the new cache
state. Times are `Nat` milliseconds; the JS `now - lastDbCheck < TTL`
comparison agrees with truncated subtraction whenever `now` is not before
`lastDbCheck`, and both sides treat an earlier `now` as within the TTL. -/
def isDbAvailable (s : DSState) (now : Nat) (probe : Bool) : Bool × DSState :=
  if s.dbAvailable ≠ none ∧ now - s.lastDbCheck < DB_CHECK_INTERVAL_MS then
    (s.dbAvailable.getD false, s)
  else
    (probe, { dbAvailable := some probe, lastDbCheck := now })

/-- Success or thrown exception of one replica/API call. -/
inductive Outcome (α : Type)
  | ok (data : α)
  | err
deriving DecidableEq, Repr

/-- `DataSourceResult<T>` from `data-source.ts` (`source` is the string
union `'local' | 'api'`). -/
structure DataSourceResult (α : Type) where
  data : α
  source : String
  latencyMs : Nat
deriving DecidableEq, Repr

/-- The shared control flow of `searchArtists`, `getArtist`,
`getArtistRelationships` and `getArtistLifeSpan` in `data-source.ts`
(their bodies are textually identical up to the queried function):
consult `isDbAvailable`; on a replica success return a `'local'` result;
on a replica exception set `dbAvailable = false` (leaving `lastDbCheck`
untouched) and fall through to the API; otherwise call the API directly.
`now` is the `startTime` capture, `tEnd` the clock at the return, and the
replica/API outcomes are passed as oracles. -/
def dataSourceFetch {α : Type} (s : DSState) (now : Nat) (probe : Bool)
    (dbRes : Outcome α) (apiRes : Outcome α) (tEnd : Nat) :
    Outcome (DataSourceResult α) × DSState :=
  let r := isDbAvailable s now probe
  if r.1 then
    match dbRes with
    | .ok d => (.ok ⟨d, "local", tEnd - now⟩, r.2)
    | .err =>
      let s2 := { r.2 with dbAvailable := some false }
      match apiRes with
      | .ok d => (.ok ⟨d, "api", tEnd - now⟩, s2)
      | .err => (.err, s2)
  else
    match apiRes with
    | .ok d => (.ok ⟨d, "api", tEnd - now⟩, r.2)
    | .err => (.err, r.2)

end DataSource

namespace Throttle

/-- Modelled from the spec: the Request Throttle implementation
(`src/lib/musicbrainz/client.ts`) is not among the sources at hand — only
its tests are. Per spec §4.1/§5 it is a single FIFO queue owning the time
of the last dispatch and enforcing a minimum inter-dispatch interval
(default 1100 ms); an operation's failure is returned to its own caller
and the queue keeps draining. -/
def MIN_REQUEST_INTERVAL_MS : Nat := 1100

/-- Modelled from the spec: one queued operation — its running time and its
eventual outcome (`Except` for a failure surfaced to the submitter). -/
structure ThrottleOp (α : Type) where
  duration : Nat
  result : Except String α
deriving Repr

/-- Modelled from the spec: serial draining of the queue. `free` is when the
worker finished the previous operation, `last` the previous dispatch time.
Each operation is dispatched no earlier than `last + minInterval` and the
per-operation outcome is delivered in submission order. -/
def throttleRun {α : Type} (minInterval : Nat) :
    Nat → Nat → List (ThrottleOp α) → List (Nat × Except String α)
  | _, _, [] => []
  | free, last, op :: rest =>
    let t := max free (last + minInterval)
    (t, op.result) :: throttleRun minInterval (t + op.duration) t rest

end Throttle

namespace Graph

/-- A graph node as the expansion loop sees it (`n.data` of the cytoscape
element: id and the `loaded` flag; the remaining entity fields do not steer
the loop). -/
structure TNode where
  id : String
  name : String
  loaded : Bool
deriving DecidableEq, Repr

/-- A graph edge as carried through `mergeGraphData` (id-keyed). -/
structure TEdge where
  id : String
  source : String
  target : String
  type : String
deriving DecidableEq, Repr

/-- The `ArtistGraph` pair of node and edge element lists. -/
structure TGraph where
  nodes : List TNode
  edges : List TEdge
deriving DecidableEq, Repr

/-- `nodeDepths.set(id, d)` guarded by `!nodeDepths.has(id)`: record a depth
only for a previously unseen node. -/
def setIfAbsent (m : List (String × Nat)) (k : String) (v : Nat) :
    List (String × Nat) :=
  if (m.lookup k).isSome then m else (k, v) :: m

/-- The `nodeDepths` initialisation of `performMultiLevelExpansion`:
the root at depth 0, then every node of the depth-1 graph at depth 1
unless already present. -/
def initDepths (rootId : String) (nodes : List TNode) : List (String × Nat) :=
  nodes.foldl (fun m n => setIfAbsent m n.id 1) [(rootId, 0)]

/-- Modelled from the spec: `mergeGraphData` lives in
`src/lib/graph/builder.ts`, which is not among the sources at hand. Per
spec §3 the merge is an idempotent union — ids never duplicated, existing
elements and their order untouched — and per §4.4 it marks the expanded
node loaded. -/
def mergeGraphData (current : TGraph) (newNodes : List TNode)
    (newEdges : List TEdge) (expandedId : String) : TGraph :=
  { nodes :=
      (current.nodes.map (fun n =>
        if n.id = expandedId then { n with loaded := true } else n)) ++
        newNodes.filter (fun n => !(current.nodes.any (fun m => m.id == n.id)))
    edges :=
      current.edges ++
        newEdges.filter (fun e => !(current.edges.any (fun f => f.id == e.id))) }

/-- The frontier filter of `performMultiLevelExpansion`: nodes with
`loaded === false` whose recorded depth is exactly the current level. -/
def frontier (g : TGraph) (m : List (String × Nat)) (level : Nat) : List TNode :=
  g.nodes.filter (fun n => decide (n.loaded = false ∧ m.lookup n.id = some level))

/-- The inner loop of `performMultiLevelExpansion` over one level's frontier:
fetch-and-build each node's sub-graph (`none` models a failed fetch, which
is logged and skipped), record depth `level + 1` for nodes not seen before,
and merge into the running graph. -/
def expandNodesAt (fetchBuild : String → Option TGraph) (level : Nat) :
    TGraph → List (String × Nat) → List TNode → TGraph × List (String × Nat)
  | g, m, [] => (g, m)
  | g, m, node :: rest =>
    match fetchBuild node.id with
    | none => expandNodesAt fetchBuild level g m rest
    | some newGraph =>
      let m2 := newGraph.nodes.foldl (fun acc n => setIfAbsent acc n.id (level + 1)) m
      let g2 := mergeGraphData g newGraph.nodes newGraph.edges node.id
      expandNodesAt fetchBuild level g2 m2 rest

/-- The level loop of `performMultiLevelExpansion`
(`for currentLevel = 1 .. depth-1`, with the early `break` when a level has
no expandable node). `levelsLeft` counts the remaining iterations. -/
def expandLevels (fetchBuild : String → Option TGraph) :
    Nat → Nat → TGraph → List (String × Nat) → TGraph × List (String × Nat)
  | _, 0, g, m => (g, m)
  | level, levelsLeft + 1, g, m =>
    let ns := frontier g m level
    if ns.isEmpty then (g, m)
    else
      let r := expandNodesAt fetchBuild level g m ns
      expandLevels fetchBuild (level + 1) levelsLeft r.1 r.2

/-- `performMultiLevelExpansion` for target depth `depth`, starting from the
already-built depth-1 graph (`buildGraphData` of the initial payload, taken
as input since the builder itself is modelled) and the root id. -/
def performMultiLevelExpansion (fetchBuild : String → Option TGraph)
    (depth : Nat) (initial : TGraph) (rootId : String) :
    TGraph × List (String × Nat) :=
  expandLevels fetchBuild 1 (depth - 1) initial (initDepths rootId initial.nodes)

end Graph

end Web

namespace Fixtures

open InterChord Web

/-- A bare person node, initially unloaded (used as a merge payload). -/
def nodeX : GraphNode where
  id := "x"
  name := "X"
  type := .person
  isLoaded := false
  isRoot := false
  isFoundingMember := false
  instruments := []

/-- A group root entity with no recorded life span. -/
def bandX : Artist where
  id := "bx"
  name := "Band X"
  type := some .group
  country := none
  lifeSpan := none

/-- A person entity related to `bandX`. -/
def personY : Artist where
  id := "py"
  name := "Y"
  type := some .person
  country := none
  lifeSpan := none

/-- Membership of `personY` in `bandX` from 1970, attribute guitar. -/
def relY : Relationship where
  type := .memberOf
  sourceArtistId := "py"
  targetArtistId := "bx"
  attributes := some ["guitar"]
  begin := some "1970"
  endDate := none
  ended := none

/-- A membership with a founder attribute but no begin date. -/
def relC4 : Relationship where
  type := .memberOf
  sourceArtistId := "bx"
  targetArtistId := "py"
  attributes := some ["founder"]
  begin := none
  endDate := none
  ended := none

/-- First membership period of `personY` in `bandX`: 1960–1966. -/
def relP1 : Relationship := { relY with begin := some "1960", endDate := some "1966" }

/-- Second membership period of `personY` in `bandX`: from 1975. -/
def relP2 : Relationship := { relY with begin := some "1975" }

/-- A membership relationship of person `pid` in `bandX` from year `yr`. -/
def mkMember (pid : String) (yr : String) (attrs : Option (List String)) : Relationship where
  type := .memberOf
  sourceArtistId := pid
  targetArtistId := "bx"
  attributes := attrs
  begin := some yr
  endDate := none
  ended := none

/-- Person A (founding-member scenario). -/
def artA : Artist := { bandX with id := "a", name := "A", type := some .person }

/-- Person B (founding-member scenario). -/
def artB : Artist := { bandX with id := "b", name := "B", type := some .person }

/-- Person C (founding-member scenario). -/
def artC : Artist := { bandX with id := "c", name := "C", type := some .person }

/-- Memberships A joined 1960, B joined 1960, C joined 1962, no founder
attributes (spec §8 scenario). -/
def relsABC : List Relationship :=
  [mkMember "a" "1960" none, mkMember "b" "1960" none, mkMember "c" "1962" none]

/-- A replica relationship row: person `p` member of band `g`, 1960–1966. -/
def rowP1 : DbClient.DbRelationship where
  entity0_gid := "p"
  entity0_name := "P"
  entity0_type := some "Person"
  entity0_comment := none
  entity1_gid := "g"
  entity1_name := "G"
  entity1_type := some "Group"
  entity1_comment := none
  link_type_name := "Member of Band"
  link_type_gid := "lt"
  begin_date_year := some 1960
  begin_date_month := none
  begin_date_day := none
  end_date_year := some 1966
  end_date_month := none
  end_date_day := none
  ended := true

/-- The rejoin row: same person, band and link type, from 1975. -/
def rowP2 : DbClient.DbRelationship := { rowP1 with
  begin_date_year := some 1975
  end_date_year := none
  ended := false }

/-- A row with a link type outside `typeMap` and `skipTypes`. -/
def rowOdd : DbClient.DbRelationship := { rowP1 with link_type_name := "Weird Link" }

end Fixtures

/-! ## Theorems -/

section Tenure

open InterChord

/-- C5: the derived tenure string is empty when the begin year is unknown,
`"<begin>–present"` when only the begin year is known, the single year when
begin and end years coincide, and `"<begin>–<end>"` otherwise
(Swift `formatTenure` / `parseYear`). -/
theorem formatTenure_cases (b e : Option String) :
    (parseYear b = none → formatTenure b e = "") ∧
    (∀ y : Int, parseYear b = some y → parseYear e = none →
      formatTenure b e = toString y ++ "–present") ∧
    (∀ y : Int, parseYear b = some y → parseYear e = some y →
      formatTenure b e = toString y) ∧
    (∀ y z : Int, parseYear b = some y → parseYear e = some z → y ≠ z →
      formatTenure b e = toString y ++ "–" ++ toString z) := by
  refine ⟨?_, ?_, ?_, ?_⟩
  · intro h
    unfold formatTenure
    rw [h]
  · intro y hy he
    unfold formatTenure
    rw [hy, he]
  · intro y hy he
    unfold formatTenure
    rw [hy, he]
    simp
  · intro y z hy hz hne
    unfold formatTenure
    rw [hy, hz]
    simp [hne]

/-- C5 witness: the spec §8 vector begin=1960, end=1970. -/
theorem formatTenure_cases_witness :
    parseYear (some "1960") = some 1960 ∧
    formatTenure (some "1960") (some "1970") = toString (1960 : Int) ++ "–" ++ toString (1970 : Int) := by
  refine ⟨by decide, ?_⟩
  exact (formatTenure_cases (some "1960") (some "1970")).2.2.2 1960 1970 (by decide) (by decide) (by decide)

end Tenure

section FoundingUnknownYear

open InterChord Fixtures

/-- C4 counterexample: a `member_of` relationship with no begin date but a
`"founder"` attribute is classified founding — both by `isFoundingMember`
directly and for the related entity's node in the built graph — refuting
"never classified as a founding member" for unknown begin years. -/
theorem unknownYear_founder_counterexample :
    parseYear relC4.begin = none ∧
    isFoundingMember relC4 1960 = true ∧
    ((ArtistGraph.build bandX [relC4] [personY]).node "py").map GraphNode.isFoundingMember
      = some true := by
  decide

/-- C4 amended: a relationship with unknown begin year is never classified
founding through the year-equality path; it is classified founding exactly
when it is a `member_of` relationship carrying a founder-like attribute. -/
theorem unknownYear_founding_iff_attr (rel : Relationship) (e : Int)
    (h : parseYear rel.begin = none) :
    isFoundingMember rel e = true ↔
      (rel.type = .memberOf ∧ rel.hasFounderAttr = true) := by
  unfold isFoundingMember
  rw [h]
  by_cases ht : rel.type = .memberOf <;> by_cases ha : rel.hasFounderAttr <;>
    simp [ht, ha]

/-- C4 amended witness: instantiated at the founder-attribute fixture. -/
theorem unknownYear_founding_iff_attr_witness :
    parseYear relC4.begin = none ∧
    (isFoundingMember relC4 1960 = true ↔
      (relC4.type = .memberOf ∧ relC4.hasFounderAttr = true)) := by
  refine ⟨by decide, ?_⟩
  exact unknownYear_founding_iff_attr relC4 1960 (by decide)

end FoundingUnknownYear

section UnrecognizedTypes

open StringModel Web.DbClient

/-- Auxiliary: the length of a drop-or-keep `filterMap` equals the length of
the corresponding `filter`. -/
theorem length_filterMap_dropKeep {α β : Type} (p : α → Bool) (f : α → β) :
    ∀ rows : List α,
      (rows.filterMap (fun r => if p r then none else some (f r))).length =
        (rows.filter (fun r => !(p r))).length := by
  intro rows
  induction rows with
  | nil => rfl
  | cons r rest ih =>
    by_cases h : p r <;> simp [List.filterMap_cons, List.filter_cons, h, ih]

/-- C8: a relationship row whose lowercased link type is neither skipped nor
in `typeMap` is kept — it contributes a relationship classified
`"collaboration"` — and overall every non-skipped row contributes exactly
one relationship (`getArtistRelationshipsFromDB` row loop). -/
theorem unrecognized_type_kept (mbid : String) (rows : List DbRelationship)
    (row : DbRelationship) (hmem : row ∈ rows)
    (hskip : skipTypes.contains (lowerString row.link_type_name) = false)
    (hunrec : typeMap.lookup (lowerString row.link_type_name) = none) :
    mkRelationship mbid row ∈ relationshipsFromRows mbid rows ∧
    (mkRelationship mbid row).type = "collaboration" ∧
    (relationshipsFromRows mbid rows).length =
      (rows.filter (fun r => !(skipTypes.contains (lowerString r.link_type_name)))).length := by
  refine ⟨?_, ?_, ?_⟩
  · unfold relationshipsFromRows
    exact List.mem_filterMap.mpr ⟨row, hmem, by rw [hskip]; rfl⟩
  · simp [mkRelationship, hunrec]
  · exact length_filterMap_dropKeep _ _ rows

/-- C8 witness: a `"Weird Link"` row kept as a collaboration among the
fetched rows. -/
theorem unrecognized_type_kept_witness :
    Fixtures.rowOdd ∈ [Fixtures.rowP1, Fixtures.rowOdd] ∧
    (mkRelationship "g" Fixtures.rowOdd ∈
       relationshipsFromRows "g" [Fixtures.rowP1, Fixtures.rowOdd] ∧
     (mkRelationship "g" Fixtures.rowOdd).type = "collaboration" ∧
     (relationshipsFromRows "g" [Fixtures.rowP1, Fixtures.rowOdd]).length =
       ([Fixtures.rowP1, Fixtures.rowOdd].filter
         (fun r => !(skipTypes.contains (lowerString r.link_type_name)))).length) := by
  refine ⟨by decide, ?_⟩
  exact unrecognized_type_kept "g" [Fixtures.rowP1, Fixtures.rowOdd] Fixtures.rowOdd
    (by decide) (by decide) (by decide)

end UnrecognizedTypes

section TwoPeriods

open StringModel InterChord Web.DbClient Fixtures

/-- Auxiliary: appending to a fixed front string is left-cancellative. -/
theorem string_append_left_cancel (a b c : String) (h : a ++ b = a ++ c) : b = c := by
  have hd := congrArg String.data h
  rw [String.data_append, String.data_append] at hd
  exact String.ext (List.append_cancel_left hd)

/-- C2 counterexample: for two replica rows that differ only in the
membership period (1960–1966 vs 1975–), the relationship records have
distinct ids and both map to `member_of`, yet the built Swift graph
contains a single edge — the second period's edge does not survive
insertion, because `GraphEdge.id` omits the period. -/
theorem two_periods_single_edge_counterexample :
    (mkRelationship "g" rowP1).id ≠ (mkRelationship "g" rowP2).id ∧
    (mkRelationship "g" rowP1).type = "member_of" ∧
    (mkRelationship "g" rowP2).type = "member_of" ∧
    relP1.begin ≠ relP2.begin ∧
    (ArtistGraph.build bandX [relP1, relP2] [personY]).edges.length = 1 := by
  decide

/-- C2 amended: the replica client does emit one relationship record per
row, with ids made distinct by `period.begin` — two rows equal up to the
begin date yield distinct ids; but graph-edge identity is
`(sourceId, targetId, type)` without the period, so inserting a second
edge with the same endpoints and type leaves the graph unchanged (only
one edge per `(source, target, type)` survives). -/
theorem two_periods_distinct_records_one_edge :
    (∀ (mbid : String) (r1 r2 : DbRelationship),
      r1.entity0_gid = r2.entity0_gid →
      r1.entity1_gid = r2.entity1_gid →
      lowerString r1.link_type_name = lowerString r2.link_type_name →
      formatDate r1.begin_date_year r1.begin_date_month r1.begin_date_day ≠
        formatDate r2.begin_date_year r2.begin_date_month r2.begin_date_day →
      (mkRelationship mbid r1).id ≠ (mkRelationship mbid r2).id) ∧
    (∀ (g : ArtistGraph) (e1 e2 : GraphEdge),
      e1.sourceId = e2.sourceId → e1.targetId = e2.targetId → e1.type = e2.type →
      (g.addEdge e1).addEdge e2 = g.addEdge e1) := by
  constructor
  · intro mbid r1 r2 h0 h1 hlt hbd heq
    apply hbd
    simp only [mkRelationship] at heq
    rw [h0, h1, hlt] at heq
    have hsfx := string_append_left_cancel _ _ _ heq
    revert hsfx
    cases hb1 : formatDate r1.begin_date_year r1.begin_date_month r1.begin_date_day <;>
      cases hb2 : formatDate r2.begin_date_year r2.begin_date_month r2.begin_date_day <;>
        intro hsfx
    · rfl
    · exact absurd (congrArg String.data hsfx) (by simp [String.data_append])
    · exact absurd (congrArg String.data hsfx) (by simp [String.data_append])
    · exact congrArg some (string_append_left_cancel "-" _ _ hsfx)
  · intro g e1 e2 hs ht hty
    have hid : e2.id = e1.id := by
      unfold GraphEdge.id
      rw [hs, ht, hty]
    by_cases h : g.edgeIds.contains e1.id
    · have ge : g.addEdge e1 = g := by rw [ArtistGraph.addEdge, if_pos h]
      rw [ge, ArtistGraph.addEdge, hid, if_pos h]
    · have hc : (g.addEdge e1).edgeIds.contains e2.id = true := by
        rw [hid, ArtistGraph.addEdge, if_neg h]
        simp
      rw [ArtistGraph.addEdge, if_pos hc]

/-- C2 amended witness: the concrete 1960/1975 rows and edges. -/
theorem two_periods_distinct_records_one_edge_witness :
    rowP1.entity0_gid = rowP2.entity0_gid ∧
    (mkRelationship "g" rowP1).id ≠ (mkRelationship "g" rowP2).id ∧
    ((ArtistGraph.empty.addEdge (GraphEdge.ofRelationship relP1 none)).addEdge
        (GraphEdge.ofRelationship relP2 none) =
      ArtistGraph.empty.addEdge (GraphEdge.ofRelationship relP1 none)) := by
  refine ⟨by decide, ?_, ?_⟩
  · exact two_periods_distinct_records_one_edge.1 "g" rowP1 rowP2 (by decide) (by decide)
      (by decide) (by decide)
  · exact two_periods_distinct_records_one_edge.2 ArtistGraph.empty _ _ (by decide) (by decide)
      (by decide)

end TwoPeriods

section Fallback

open Web.DataSource

/-- C6: when the cached health verdict is a fresh `available` and the
replica query throws, the cache is flipped to `unavailable` at once
(without touching `lastDbCheck`), the same call falls through to the API
and succeeds with `source = "api"` whenever the API succeeds, the caller
sees a failure exactly when the API also fails, and every subsequent call
within the TTL window of the cache skips the replica entirely — it behaves
as a pure API call and leaves the cache untouched
(`data-source.ts`, `isDbAvailable` plus the shared operation body). -/
theorem replica_failure_falls_back {α : Type} (s : DSState) (now : Nat) (probe : Bool)
    (apiRes : Outcome α) (tEnd : Nat)
    (hAvail : s.dbAvailable = some true)
    (hTTL : now - s.lastDbCheck < DB_CHECK_INTERVAL_MS) :
    ((dataSourceFetch s now probe .err apiRes tEnd).2 =
        { dbAvailable := some false, lastDbCheck := s.lastDbCheck }) ∧
    (∀ d, apiRes = .ok d →
      (dataSourceFetch s now probe .err apiRes tEnd).1 = .ok ⟨d, "api", tEnd - now⟩) ∧
    ((dataSourceFetch s now probe .err apiRes tEnd).1 = .err ↔ apiRes = .err) ∧
    (∀ (now2 tEnd2 : Nat) (probe2 : Bool) (dbRes2 apiRes2 : Outcome α),
      now2 - (dataSourceFetch s now probe .err apiRes tEnd).2.lastDbCheck <
          DB_CHECK_INTERVAL_MS →
      dataSourceFetch (dataSourceFetch s now probe .err apiRes tEnd).2
          now2 probe2 dbRes2 apiRes2 tEnd2 =
        (match apiRes2 with
          | .ok d => .ok ⟨d, "api", tEnd2 - now2⟩
          | .err => .err,
         (dataSourceFetch s now probe .err apiRes tEnd).2)) := by
  have hIs : isDbAvailable s now probe = (true, s) := by
    rw [isDbAvailable, if_pos ⟨by rw [hAvail]; exact Option.noConfusion, hTTL⟩, hAvail]
    rfl
  have hFetch : dataSourceFetch s now probe (Outcome.err (α := α)) apiRes tEnd =
      (match apiRes with
        | .ok d => .ok ⟨d, "api", tEnd - now⟩
        | .err => .err,
       ({ dbAvailable := some false, lastDbCheck := s.lastDbCheck } : DSState)) := by
    rw [dataSourceFetch.eq_def]
    rw [hIs]
    cases apiRes <;> rfl
  rw [hFetch]
  refine ⟨rfl, ?_, ?_, ?_⟩
  · intro d hd
    rw [hd]
  · cases apiRes <;> simp
  · intro now2 tEnd2 probe2 dbRes2 apiRes2 hTTL2
    have hIs2 : isDbAvailable { dbAvailable := some false, lastDbCheck := s.lastDbCheck }
        now2 probe2 = (false, { dbAvailable := some false, lastDbCheck := s.lastDbCheck }) := by
      rw [isDbAvailable, if_pos ⟨Option.noConfusion, hTTL2⟩]
      rfl
    rw [dataSourceFetch.eq_def, hIs2]
    cases apiRes <;> cases apiRes2 <;> rfl

/-- C6 witness: a concrete fresh-available cache, a thrown replica query
and a successful API call. -/
theorem replica_failure_falls_back_witness :
    (⟨some true, 0⟩ : DSState).dbAvailable = some true ∧
    (10 : Nat) - (⟨some true, 0⟩ : DSState).lastDbCheck < DB_CHECK_INTERVAL_MS ∧
    (dataSourceFetch (⟨some true, 0⟩ : DSState) 10 false .err (.ok (7 : Nat)) 25).2.dbAvailable
      = some false ∧
    (dataSourceFetch (⟨some true, 0⟩ : DSState) 10 false .err (.ok (7 : Nat)) 25).1
      = .ok ⟨7, "api", 25 - 10⟩ := by
  refine ⟨rfl, by decide, ?_, ?_⟩
  · exact congrArg DSState.dbAvailable
      (replica_failure_falls_back (⟨some true, 0⟩ : DSState) 10 false (.ok (7 : Nat)) 25
        rfl (by decide)).1
  · exact (replica_failure_falls_back (⟨some true, 0⟩ : DSState) 10 false (.ok (7 : Nat)) 25
      rfl (by decide)).2.1 7 rfl

end Fallback

section ThrottleProps

open Web.Throttle

/-- Auxiliary: the first dispatch of a drained queue happens no earlier
than the previous dispatch plus the minimum interval. -/
theorem throttleRun_head_time {α : Type} (minI : Nat) (free last : Nat)
    (ops : List (ThrottleOp α)) (x : Nat × Except String α)
    (h : (throttleRun minI free last ops).head? = some x) : last + minI ≤ x.1 := by
  cases ops with
  | nil => simp [throttleRun] at h
  | cons op rest =>
    simp only [throttleRun, List.head?_cons, Option.some_inj] at h
    rw [← h]
    exact Nat.le_max_right _ _

/-- Auxiliary: successive dispatch times are spaced by at least the
minimum interval. -/
theorem throttleRun_spaced {α : Type} (minI : Nat) :
    ∀ (free last : Nat) (ops : List (ThrottleOp α)),
      List.Chain' (fun a b => a.1 + minI ≤ b.1) (throttleRun minI free last ops) := by
  intro free last ops
  induction ops generalizing free last with
  | nil => simp [throttleRun]
  | cons op rest ih =>
    rw [throttleRun]
    rw [List.chain'_cons']
    refine ⟨?_, ih _ _⟩
    intro y hy
    exact throttleRun_head_time minI _ _ rest y (Option.mem_def.mp hy)

/-- C7 (Request Throttle modelled from the spec, its implementation not
being among the sources): drained in submission order, every queued
operation is dispatched at least the minimum interval (default 1100 ms)
after the previous dispatch, and each — including a failing one — delivers
its own outcome to its own caller, the queue draining past failures. -/
theorem throttle_fifo_spacing {α : Type} (minInterval free last : Nat)
    (ops : List (ThrottleOp α)) :
    MIN_REQUEST_INTERVAL_MS = 1100 ∧
    (throttleRun minInterval free last ops).length = ops.length ∧
    (throttleRun minInterval free last ops).map Prod.snd = ops.map ThrottleOp.result ∧
    List.Chain' (fun a b => a.1 + minInterval ≤ b.1)
      (throttleRun minInterval free last ops) := by
  have hmap : ∀ (free last : Nat),
      (throttleRun minInterval free last ops).map Prod.snd = ops.map ThrottleOp.result := by
    induction ops with
    | nil => intro free last; rfl
    | cons op rest ih => intro free last; simp [throttleRun, ih]
  refine ⟨rfl, ?_, hmap free last, throttleRun_spaced minInterval free last ops⟩
  have := congrArg List.length (hmap free last)
  simpa using this

end ThrottleProps

section GraphMerge

open InterChord

/-- Auxiliary: membership survives appending on the right. -/
theorem contains_append_of_left (a b : List String) (x : String)
    (h : a.contains x = true) : (a ++ b).contains x = true := by
  simp at h ⊢
  exact Or.inl h

/-- Auxiliary: `addNode` does not touch the edge side. -/
theorem addNode_edges (g : ArtistGraph) (n : GraphNode) :
    (g.addNode n).edges = g.edges ∧ (g.addNode n).edgeIds = g.edgeIds := by
  by_cases h : g.nodeIds.contains n.id
  · rw [ArtistGraph.addNode, if_pos h]
    exact ⟨rfl, rfl⟩
  · rw [ArtistGraph.addNode, if_neg h]
    exact ⟨rfl, rfl⟩

/-- Auxiliary: `addNode` only ever appends to `nodes` and `nodeIds`. -/
theorem addNode_append (g : ArtistGraph) (n : GraphNode) :
    ∃ t u, (g.addNode n).nodes = g.nodes ++ t ∧ (g.addNode n).nodeIds = g.nodeIds ++ u := by
  by_cases h : g.nodeIds.contains n.id
  · rw [ArtistGraph.addNode, if_pos h]
    exact ⟨[], [], by simp, by simp⟩
  · rw [ArtistGraph.addNode, if_neg h]
    exact ⟨[n], [n.id], rfl, rfl⟩

/-- Auxiliary: a node fold does not touch the edge side. -/
theorem foldl_addNode_edges :
    ∀ (ns : List GraphNode) (g : ArtistGraph),
      (ns.foldl ArtistGraph.addNode g).edges = g.edges ∧
      (ns.foldl ArtistGraph.addNode g).edgeIds = g.edgeIds := by
  intro ns
  induction ns with
  | nil => intro g; exact ⟨rfl, rfl⟩
  | cons n rest ih =>
    intro g
    obtain ⟨h1, h2⟩ := ih (g.addNode n)
    obtain ⟨h3, h4⟩ := addNode_edges g n
    exact ⟨by rw [List.foldl_cons, h1, h3], by rw [List.foldl_cons, h2, h4]⟩

/-- Auxiliary: a node fold only ever appends to `nodes` and `nodeIds`. -/
theorem foldl_addNode_append :
    ∀ (ns : List GraphNode) (g : ArtistGraph),
      ∃ t u, (ns.foldl ArtistGraph.addNode g).nodes = g.nodes ++ t ∧
        (ns.foldl ArtistGraph.addNode g).nodeIds = g.nodeIds ++ u := by
  intro ns
  induction ns with
  | nil => intro g; exact ⟨[], [], by simp, by simp⟩
  | cons n rest ih =>
    intro g
    obtain ⟨t, u, ht, hu⟩ := ih (g.addNode n)
    obtain ⟨t0, u0, h0, h1⟩ := addNode_append g n
    refine ⟨t0 ++ t, u0 ++ u, ?_, ?_⟩
    · rw [List.foldl_cons, ht, h0, List.append_assoc]
    · rw [List.foldl_cons, hu, h1, List.append_assoc]

/-- Auxiliary: after `addNode n`, the node id is registered. -/
theorem addNode_contains_self (g : ArtistGraph) (n : GraphNode) :
    (g.addNode n).nodeIds.contains n.id = true := by
  by_cases h : g.nodeIds.contains n.id
  · rw [ArtistGraph.addNode, if_pos h]
    exact h
  · rw [ArtistGraph.addNode, if_neg h]
    simp

/-- Auxiliary: registered node ids survive a node fold. -/
theorem foldl_addNode_contains_mono (ns : List GraphNode) (g : ArtistGraph) (x : String)
    (h : g.nodeIds.contains x = true) :
    ((ns.foldl ArtistGraph.addNode g).nodeIds.contains x) = true := by
  obtain ⟨t, u, _, hu⟩ := foldl_addNode_append ns g
  rw [hu]
  exact contains_append_of_left _ _ _ h

/-- Auxiliary: after folding in a node list, every listed id is registered. -/
theorem foldl_addNode_contains_of_mem :
    ∀ (ns : List GraphNode) (g : ArtistGraph) (n : GraphNode), n ∈ ns →
      ((ns.foldl ArtistGraph.addNode g).nodeIds.contains n.id) = true := by
  intro ns
  induction ns with
  | nil => intro g n h; cases h
  | cons m rest ih =>
    intro g n h
    rcases List.mem_cons.mp h with h | h
    · subst h
      exact foldl_addNode_contains_mono rest _ _ (addNode_contains_self g n)
    · exact ih (g.addNode m) n h

/-- Auxiliary: adding an already-registered node is a no-op. -/
theorem addNode_skip (g : ArtistGraph) (n : GraphNode)
    (h : g.nodeIds.contains n.id = true) : g.addNode n = g := by
  rw [ArtistGraph.addNode, if_pos h]

/-- Auxiliary: folding in only already-registered nodes is a no-op. -/
theorem foldl_addNode_skipAll :
    ∀ (ns : List GraphNode) (g : ArtistGraph),
      (∀ n ∈ ns, g.nodeIds.contains n.id = true) → ns.foldl ArtistGraph.addNode g = g := by
  intro ns
  induction ns with
  | nil => intro g _; rfl
  | cons m rest ih =>
    intro g h
    rw [List.foldl_cons, addNode_skip g m (h m (List.mem_cons_self m rest))]
    exact ih g (fun n hn => h n (List.mem_cons_of_mem m hn))

/-- Auxiliary: `addEdge` does not touch the node side. -/
theorem addEdge_nodes (g : ArtistGraph) (e : GraphEdge) :
    (g.addEdge e).nodes = g.nodes ∧ (g.addEdge e).nodeIds = g.nodeIds := by
  by_cases h : g.edgeIds.contains e.id
  · rw [ArtistGraph.addEdge, if_pos h]
    exact ⟨rfl, rfl⟩
  · rw [ArtistGraph.addEdge, if_neg h]
    exact ⟨rfl, rfl⟩

/-- Auxiliary: `addEdge` only ever appends to `edges` and `edgeIds`. -/
theorem addEdge_append (g : ArtistGraph) (e : GraphEdge) :
    ∃ t u, (g.addEdge e).edges = g.edges ++ t ∧ (g.addEdge e).edgeIds = g.edgeIds ++ u := by
  by_cases h : g.edgeIds.contains e.id
  · rw [ArtistGraph.addEdge, if_pos h]
    exact ⟨[], [], by simp, by simp⟩
  · rw [ArtistGraph.addEdge, if_neg h]
    exact ⟨[e], [e.id], rfl, rfl⟩

/-- Auxiliary: an edge fold does not touch the node side. -/
theorem foldl_addEdge_nodes :
    ∀ (es : List GraphEdge) (g : ArtistGraph),
      (es.foldl ArtistGraph.addEdge g).nodes = g.nodes ∧
      (es.foldl ArtistGraph.addEdge g).nodeIds = g.nodeIds := by
  intro es
  induction es with
  | nil => intro g; exact ⟨rfl, rfl⟩
  | cons e rest ih =>
    intro g
    obtain ⟨h1, h2⟩ := ih (g.addEdge e)
    obtain ⟨h3, h4⟩ := addEdge_nodes g e
    exact ⟨by rw [List.foldl_cons, h1, h3], by rw [List.foldl_cons, h2, h4]⟩

/-- Auxiliary: an edge fold only ever appends to `edges` and `edgeIds`. -/
theorem foldl_addEdge_append :
    ∀ (es : List GraphEdge) (g : ArtistGraph),
      ∃ t u, (es.foldl ArtistGraph.addEdge g).edges = g.edges ++ t ∧
        (es.foldl ArtistGraph.addEdge g).edgeIds = g.edgeIds ++ u := by
  intro es
  induction es with
  | nil => intro g; exact ⟨[], [], by simp, by simp⟩
  | cons e rest ih =>
    intro g
    obtain ⟨t, u, ht, hu⟩ := ih (g.addEdge e)
    obtain ⟨t0, u0, h0, h1⟩ := addEdge_append g e
    refine ⟨t0 ++ t, u0 ++ u, ?_, ?_⟩
    · rw [List.foldl_cons, ht, h0, List.append_assoc]
    · rw [List.foldl_cons, hu, h1, List.append_assoc]

/-- Auxiliary: after `addEdge e`, the edge id is registered. -/
theorem addEdge_contains_self (g : ArtistGraph) (e : GraphEdge) :
    (g.addEdge e).edgeIds.contains e.id = true := by
  by_cases h : g.edgeIds.contains e.id
  · rw [ArtistGraph.addEdge, if_pos h]
    exact h
  · rw [ArtistGraph.addEdge, if_neg h]
    simp

/-- Auxiliary: registered edge ids survive an edge fold. -/
theorem foldl_addEdge_contains_mono (es : List GraphEdge) (g : ArtistGraph) (x : String)
    (h : g.edgeIds.contains x = true) :
    ((es.foldl ArtistGraph.addEdge g).edgeIds.contains x) = true := by
  obtain ⟨t, u, _, hu⟩ := foldl_addEdge_append es g
  rw [hu]
  exact contains_append_of_left _ _ _ h

/-- Auxiliary: after folding in an edge list, every listed id is registered. -/
theorem foldl_addEdge_contains_of_mem :
    ∀ (es : List GraphEdge) (g : ArtistGraph) (e : GraphEdge), e ∈ es →
      ((es.foldl ArtistGraph.addEdge g).edgeIds.contains e.id) = true := by
  intro es
  induction es with
  | nil => intro g e h; cases h
  | cons f rest ih =>
    intro g e h
    rcases List.mem_cons.mp h with h | h
    · subst h
      exact foldl_addEdge_contains_mono rest _ _ (addEdge_contains_self g e)
    · exact ih (g.addEdge f) e h

/-- Auxiliary: adding an already-registered edge is a no-op. -/
theorem addEdge_skip (g : ArtistGraph) (e : GraphEdge)
    (h : g.edgeIds.contains e.id = true) : g.addEdge e = g := by
  rw [ArtistGraph.addEdge, if_pos h]

/-- Auxiliary: folding in only already-registered edges is a no-op. -/
theorem foldl_addEdge_skipAll :
    ∀ (es : List GraphEdge) (g : ArtistGraph),
      (∀ e ∈ es, g.edgeIds.contains e.id = true) → es.foldl ArtistGraph.addEdge g = g := by
  intro es
  induction es with
  | nil => intro g _; rfl
  | cons f rest ih =>
    intro g h
    rw [List.foldl_cons, addEdge_skip g f (h f (List.mem_cons_self f rest))]
    exact ih g (fun e he => h e (List.mem_cons_of_mem f he))

/-- Auxiliary: marking preserves the node ids (positionally). -/
theorem markLoadedFirst_map_id (i : String) :
    ∀ l : List GraphNode, (markLoadedFirst l i).map GraphNode.id = l.map GraphNode.id := by
  intro l
  induction l with
  | nil => rfl
  | cons n ns ih =>
    by_cases h : n.id = i
    · rw [markLoadedFirst, if_pos h]
      rfl
    · rw [markLoadedFirst, if_neg h, List.map_cons, List.map_cons, ih]

/-- Auxiliary: marking a node found in the left part of an append only
rewrites the left part. -/
theorem markLoadedFirst_append_left (i : String) :
    ∀ (l1 l2 : List GraphNode), (∃ n ∈ l1, n.id = i) →
      markLoadedFirst (l1 ++ l2) i = markLoadedFirst l1 i ++ l2 := by
  intro l1
  induction l1 with
  | nil =>
    intro l2 h
    obtain ⟨n, hn, _⟩ := h
    cases hn
  | cons m ms ih =>
    intro l2 h
    by_cases hm : m.id = i
    · rw [List.cons_append, markLoadedFirst, if_pos hm, markLoadedFirst, if_pos hm, List.cons_append]
    · obtain ⟨n, hn, hni⟩ := h
      rcases List.mem_cons.mp hn with h' | h'
      · exact absurd (h' ▸ hni) hm
      · rw [List.cons_append, markLoadedFirst, if_neg hm, markLoadedFirst, if_neg hm,
          ih l2 ⟨n, h', hni⟩, List.cons_append]

/-- Auxiliary: marking twice equals marking once. -/
theorem markLoadedFirst_idem (i : String) :
    ∀ l : List GraphNode, markLoadedFirst (markLoadedFirst l i) i = markLoadedFirst l i := by
  intro l
  induction l with
  | nil => rfl
  | cons n ns ih =>
    by_cases h : n.id = i
    · rw [markLoadedFirst, if_pos h, markLoadedFirst, if_pos h]
    · rw [markLoadedFirst, if_neg h, markLoadedFirst, if_neg h, ih]

/-- Auxiliary: marking preserves length. -/
theorem markLoadedFirst_length (i : String) :
    ∀ l : List GraphNode, (markLoadedFirst l i).length = l.length := by
  intro l
  induction l with
  | nil => rfl
  | cons n ns ih =>
    by_cases h : n.id = i
    · rw [markLoadedFirst, if_pos h, List.length_cons, List.length_cons]
    · rw [markLoadedFirst, if_neg h, List.length_cons, List.length_cons, ih]

/-- Auxiliary: positionally, marking either leaves a node unchanged or sets
its `isLoaded` — and a change only happens at the searched id. -/
theorem markLoadedFirst_getElem (i0 : String) :
    ∀ (l : List GraphNode) (i : Nat) (n : GraphNode), l[i]? = some n →
      ((markLoadedFirst l i0)[i]? = some n ∨
        ((markLoadedFirst l i0)[i]? = some { n with isLoaded := true } ∧ n.id = i0)) := by
  intro l
  induction l with
  | nil => intro i n h; simp at h
  | cons m ms ih =>
    intro i n h
    by_cases hm : m.id = i0
    · rw [markLoadedFirst, if_pos hm]
      cases i with
      | zero =>
        rw [List.getElem?_cons_zero, Option.some_inj] at h
        subst h
        exact Or.inr ⟨List.getElem?_cons_zero, hm⟩
      | succ j =>
        rw [List.getElem?_cons_succ] at h
        exact Or.inl (by rw [List.getElem?_cons_succ]; exact h)
    · rw [markLoadedFirst, if_neg hm]
      cases i with
      | zero =>
        rw [List.getElem?_cons_zero, Option.some_inj] at h
        subst h
        exact Or.inl List.getElem?_cons_zero
      | succ j =>
        rw [List.getElem?_cons_succ] at h
        rcases ih j n h with h' | ⟨h', hid⟩
        · exact Or.inl (by rw [List.getElem?_cons_succ]; exact h')
        · exact Or.inr ⟨by rw [List.getElem?_cons_succ]; exact h', hid⟩

end GraphMerge

section MergeClaims

open InterChord

/-- C1 counterexample: with an empty graph and a payload whose node carries
the expanded id, the second merge flips that node's `isLoaded` (the first
merge's `markNodeLoaded` ran before the node existed), so merging twice
differs from merging once. -/
theorem merge_not_idempotent_counterexample :
    ArtistGraph.merge (ArtistGraph.merge ArtistGraph.empty [Fixtures.nodeX] [] "x")
        [Fixtures.nodeX] [] "x" ≠
      ArtistGraph.merge ArtistGraph.empty [Fixtures.nodeX] [] "x" := by
  decide

/-- C1 amended: whenever the expanded id already names a node of the graph
(which `expandNode` guarantees — it only merges for an existing, unloaded
node), merging the same `(nodes, edges)` payload twice equals merging it
once: no id is duplicated, no element re-ordered, no attribute changed. -/
theorem merge_idempotent_of_expanded_present (g : ArtistGraph) (nn : List GraphNode)
    (ne : List GraphEdge) (eid : String) (h : eid ∈ g.nodes.map GraphNode.id) :
    (g.merge nn ne eid).merge nn ne eid = g.merge nn ne eid := by
  have hex : ∃ n ∈ markLoadedFirst g.nodes eid, n.id = eid := by
    have h2 : eid ∈ (markLoadedFirst g.nodes eid).map GraphNode.id := by
      rw [markLoadedFirst_map_id]
      exact h
    obtain ⟨n, hn, hid⟩ := List.mem_map.mp h2
    exact ⟨n, hn, hid⟩
  obtain ⟨t, u, hBnodes, hBids⟩ := foldl_addNode_append nn (g.markNodeLoaded eid)
  have hCnodes : (ArtistGraph.merge g nn ne eid).nodes = markLoadedFirst g.nodes eid ++ t := by
    show (ne.foldl ArtistGraph.addEdge
      (nn.foldl ArtistGraph.addNode (g.markNodeLoaded eid))).nodes = _
    rw [(foldl_addEdge_nodes ne _).1, hBnodes]
    rfl
  have hCnodeIds : (ArtistGraph.merge g nn ne eid).nodeIds =
      (nn.foldl ArtistGraph.addNode (g.markNodeLoaded eid)).nodeIds :=
    (foldl_addEdge_nodes ne _).2
  have hmark : (ArtistGraph.merge g nn ne eid).markNodeLoaded eid =
      ArtistGraph.merge g nn ne eid := by
    have hml : markLoadedFirst (ArtistGraph.merge g nn ne eid).nodes eid =
        (ArtistGraph.merge g nn ne eid).nodes := by
      rw [hCnodes, markLoadedFirst_append_left eid _ _ hex, markLoadedFirst_idem]
    rw [ArtistGraph.markNodeLoaded, hml]
  have hnodesSkip : nn.foldl ArtistGraph.addNode (ArtistGraph.merge g nn ne eid) =
      ArtistGraph.merge g nn ne eid := by
    apply foldl_addNode_skipAll
    intro n hn
    rw [hCnodeIds]
    exact foldl_addNode_contains_of_mem nn _ n hn
  have hedgesSkip : ne.foldl ArtistGraph.addEdge (ArtistGraph.merge g nn ne eid) =
      ArtistGraph.merge g nn ne eid := by
    apply foldl_addEdge_skipAll
    intro e he
    exact foldl_addEdge_contains_of_mem ne _ e he
  show ne.foldl ArtistGraph.addEdge
      (nn.foldl ArtistGraph.addNode ((ArtistGraph.merge g nn ne eid).markNodeLoaded eid)) =
    ArtistGraph.merge g nn ne eid
  rw [hmark, hnodesSkip, hedgesSkip]

/-- C1 amended witness: a one-node graph whose node is the expanded one. -/
theorem merge_idempotent_of_expanded_present_witness :
    "x" ∈ (ArtistGraph.empty.addNode Fixtures.nodeX).nodes.map GraphNode.id ∧
    ((ArtistGraph.empty.addNode Fixtures.nodeX).merge [Fixtures.nodeX] [] "x").merge
        [Fixtures.nodeX] [] "x" =
      (ArtistGraph.empty.addNode Fixtures.nodeX).merge [Fixtures.nodeX] [] "x" :=
  ⟨by decide, merge_idempotent_of_expanded_present _ _ _ _ (by decide)⟩

/-- C10: merging never rewrites what is already in the graph — the existing
edge list is a prefix of the merged one, and each existing node is either
untouched or exactly its `isLoaded` is set to `true`, the latter only on
the node whose id is the expanded one (`addNode`/`addEdge` skip known ids;
`markNodeLoaded` touches only `isLoaded`). -/
theorem merge_frame (g : ArtistGraph) (nn : List GraphNode) (ne : List GraphEdge)
    (eid : String) :
    ((g.merge nn ne eid).edges.take g.edges.length = g.edges) ∧
    (∀ (i : Nat) (n : GraphNode), g.nodes[i]? = some n →
      ((g.merge nn ne eid).nodes[i]? = some n ∨
        ((g.merge nn ne eid).nodes[i]? = some { n with isLoaded := true } ∧ n.id = eid))) := by
  constructor
  · obtain ⟨t, u, ht, hu⟩ :=
      foldl_addEdge_append ne (nn.foldl ArtistGraph.addNode (g.markNodeLoaded eid))
    have hBedges : (nn.foldl ArtistGraph.addNode (g.markNodeLoaded eid)).edges = g.edges := by
      rw [(foldl_addNode_edges nn _).1]
      rfl
    have hCedges : (ArtistGraph.merge g nn ne eid).edges = g.edges ++ t := by
      show (ne.foldl ArtistGraph.addEdge
        (nn.foldl ArtistGraph.addNode (g.markNodeLoaded eid))).edges = _
      rw [ht, hBedges]
    rw [hCedges, List.take_left]
  · intro i n hn
    obtain ⟨t, u, hBnodes, _⟩ := foldl_addNode_append nn (g.markNodeLoaded eid)
    have hCnodes : (ArtistGraph.merge g nn ne eid).nodes =
        markLoadedFirst g.nodes eid ++ t := by
      show (ne.foldl ArtistGraph.addEdge
        (nn.foldl ArtistGraph.addNode (g.markNodeLoaded eid))).nodes = _
      rw [(foldl_addEdge_nodes ne _).1, hBnodes]
      rfl
    have hlen : i < (markLoadedFirst g.nodes eid).length := by
      rw [markLoadedFirst_length]
      exact (List.getElem?_eq_some.mp hn).1
    rw [hCnodes, List.getElem?_append_left hlen]
    exact markLoadedFirst_getElem eid g.nodes i n hn

/-- C10 witness: a one-node graph, empty payload, expanding that node. -/
theorem merge_frame_witness :
    (ArtistGraph.empty.addNode Fixtures.nodeX).nodes[0]? = some Fixtures.nodeX ∧
    (((ArtistGraph.empty.addNode Fixtures.nodeX).merge [] [] "x").nodes[0]? =
        some Fixtures.nodeX ∨
      (((ArtistGraph.empty.addNode Fixtures.nodeX).merge [] [] "x").nodes[0]? =
          some { Fixtures.nodeX with isLoaded := true } ∧ Fixtures.nodeX.id = "x")) :=
  ⟨by decide,
    (merge_frame (ArtistGraph.empty.addNode Fixtures.nodeX) [] [] "x").2 0 Fixtures.nodeX
      (by decide)⟩

end MergeClaims

section FoundingCharacterization

open InterChord

/-- Auxiliary: one step of the earliest-year fold never increases the
accumulator. -/
theorem gemStep_le (a : Int) (rel : Relationship) : getEarliestMemberYearStep a rel ≤ a := by
  unfold getEarliestMemberYearStep
  by_cases ht : rel.type = .memberOf
  · rw [if_pos ht]
    cases hp : parseYear rel.begin with
    | none => exact le_refl a
    | some y =>
      show (if y < a then y else a) ≤ a
      by_cases hy : y < a
      · rw [if_pos hy]
        exact le_of_lt hy
      · rw [if_neg hy]
  · rw [if_neg ht]

/-- Auxiliary: the earliest-year fold never exceeds its starting value. -/
theorem gemFoldl_le_init :
    ∀ (rels : List Relationship) (a : Int),
      rels.foldl getEarliestMemberYearStep a ≤ a := by
  intro rels
  induction rels with
  | nil => intro a; exact le_refl a
  | cons r rest ih =>
    intro a
    exact le_trans (ih (getEarliestMemberYearStep a r)) (gemStep_le a r)

/-- Auxiliary: the earliest-year fold is bounded by every parsed `memberOf`
begin year in the list. -/
theorem gemFoldl_le_member :
    ∀ (rels : List Relationship) (a : Int) (rel : Relationship) (y : Int),
      rel ∈ rels → rel.type = .memberOf → parseYear rel.begin = some y →
      rels.foldl getEarliestMemberYearStep a ≤ y := by
  intro rels
  induction rels with
  | nil => intro a rel y hmem; cases hmem
  | cons r rest ih =>
    intro a rel y hmem ht hp
    rcases List.mem_cons.mp hmem with h | h
    · subst h
      have hstep : getEarliestMemberYearStep a rel ≤ y := by
        unfold getEarliestMemberYearStep
        rw [if_pos ht, hp]
        show (if y < a then y else a) ≤ y
        by_cases hy : y < a
        · rw [if_pos hy]
        · rw [if_neg hy]
          exact le_of_not_lt hy
      exact le_trans (gemFoldl_le_init rest _) hstep
    · exact ih (getEarliestMemberYearStep a r) rel y h ht hp

/-- Auxiliary: the earliest-year fold returns its starting value or a
parsed `memberOf` begin year from the list. -/
theorem gemFoldl_cases :
    ∀ (rels : List Relationship) (a : Int),
      rels.foldl getEarliestMemberYearStep a = a ∨
      ∃ rel ∈ rels, rel.type = .memberOf ∧
        parseYear rel.begin = some (rels.foldl getEarliestMemberYearStep a) := by
  intro rels
  induction rels with
  | nil => intro a; exact Or.inl rfl
  | cons r rest ih =>
    intro a
    rcases ih (getEarliestMemberYearStep a r) with h | ⟨rel, hmem, ht, hp⟩
    · rw [List.foldl_cons, h]
      unfold getEarliestMemberYearStep
      by_cases ht : r.type = .memberOf
      · rw [if_pos ht]
        cases hp : parseYear r.begin with
        | none => exact Or.inl rfl
        | some y =>
          show (if y < a then y else a) = a ∨
            ∃ rel ∈ r :: rest, rel.type = .memberOf ∧
              parseYear rel.begin = some (if y < a then y else a)
          by_cases hy : y < a
          · rw [if_pos hy]
            exact Or.inr ⟨r, List.mem_cons_self r rest, ht, hp⟩
          · rw [if_neg hy]
            exact Or.inl rfl
      · rw [if_neg ht]
        exact Or.inl rfl
    · rw [List.foldl_cons]
      exact Or.inr ⟨rel, List.mem_cons_of_mem r hmem, ht, hp⟩

/-- Auxiliary: Boolean founding check unfolded to a proposition. -/
theorem isFoundingMember_iff (rel : Relationship) (E : Int) :
    isFoundingMember rel E = true ↔
      (rel.type = .memberOf ∧ (rel.hasFounderAttr = true ∨ parseYear rel.begin = some E)) := by
  unfold isFoundingMember
  by_cases ht : rel.type = .memberOf <;> by_cases ha : rel.hasFounderAttr <;>
    cases hp : parseYear rel.begin <;> simp [ht, ha, hp]

/-- Auxiliary: adding a node to the empty graph registers exactly it. -/
theorem empty_addNode (n : GraphNode) :
    ArtistGraph.empty.addNode n =
      { nodes := [n], edges := [], nodeIds := [n.id], edgeIds := [] } := by
  rw [ArtistGraph.addNode, if_neg (by simp [ArtistGraph.empty])]
  rfl

/-- Auxiliary: `addNode` preserves the node-id registry invariant. -/
theorem addNode_wf (g : ArtistGraph) (n : GraphNode)
    (h : g.nodeIds = g.nodes.map GraphNode.id) :
    (g.addNode n).nodeIds = (g.addNode n).nodes.map GraphNode.id := by
  by_cases hc : g.nodeIds.contains n.id
  · rw [ArtistGraph.addNode, if_pos hc]
    exact h
  · rw [ArtistGraph.addNode, if_neg hc]
    simp [h]

/-- Auxiliary: with the registry invariant, an unregistered id has no node. -/
theorem node_eq_none_of_not_contains (g : ArtistGraph) (i : String)
    (hwf : g.nodeIds = g.nodes.map GraphNode.id)
    (hc : g.nodeIds.contains i = false) :
    g.node i = none := by
  rw [ArtistGraph.node, List.find?_eq_none]
  intro n hn
  rw [hwf] at hc
  simp at hc
  intro hid
  exact hc n hn (of_decide_eq_true hid)

/-- Auxiliary: `addNode` preserves an existing node lookup. -/
theorem addNode_node_preserved (g : ArtistGraph) (m : GraphNode) (i : String)
    (n : GraphNode) (h : g.node i = some n) : (g.addNode m).node i = some n := by
  by_cases hc : g.nodeIds.contains m.id
  · rw [ArtistGraph.addNode, if_pos hc]
    exact h
  · rw [ArtistGraph.addNode, if_neg hc]
    rw [ArtistGraph.node] at h ⊢
    rw [List.find?_append, h]
    rfl

/-- Auxiliary: a node fold preserves an existing node lookup. -/
theorem foldl_addNode_node_preserved (f : Artist → GraphNode) :
    ∀ (ras : List Artist) (g : ArtistGraph) (i : String) (n : GraphNode),
      g.node i = some n →
      ((ras.foldl (fun gr a => gr.addNode (f a)) g).node i = some n) := by
  intro ras
  induction ras with
  | nil => intro g i n h; exact h
  | cons a rest ih =>
    intro g i n h
    exact ih (g.addNode (f a)) i n (addNode_node_preserved g (f a) i n h)

/-- Auxiliary: folding the related-artist list into a well-formed graph puts
the node built for the first occurrence of an unregistered id where
`node(withId:)` finds it. -/
theorem foldl_addNode_node_found (f : Artist → GraphNode) (hf : ∀ a, (f a).id = a.id) :
    ∀ (pre : List Artist) (post : List Artist) (ra : Artist) (g : ArtistGraph),
      g.nodeIds = g.nodes.map GraphNode.id →
      (∀ x ∈ pre, x.id ≠ ra.id) →
      g.nodeIds.contains ra.id = false →
      (((pre ++ ra :: post).foldl (fun gr a => gr.addNode (f a)) g).node ra.id = some (f ra)) := by
  intro pre
  induction pre with
  | nil =>
    intro post ra g hwf _ hc
    rw [List.nil_append, List.foldl_cons]
    apply foldl_addNode_node_preserved f post
    have hnone : g.node ra.id = none := node_eq_none_of_not_contains g ra.id hwf hc
    rw [ArtistGraph.node] at hnone
    rw [ArtistGraph.addNode, if_neg (by rw [hf ra, hc]; exact Bool.false_ne_true)]
    rw [ArtistGraph.node]
    show ((g.nodes ++ [f ra]).find? fun n => n.id = ra.id) = some (f ra)
    rw [List.find?_append, hnone]
    simp [List.find?, hf ra]
  | cons x rest ih =>
    intro post ra g hwf hfirst hc
    rw [List.cons_append, List.foldl_cons]
    have hxne : x.id ≠ ra.id := hfirst x (List.mem_cons_self x rest)
    apply ih post ra (g.addNode (f x)) (addNode_wf g (f x) hwf)
      (fun z hz => hfirst z (List.mem_cons_of_mem x hz))
    by_cases hcx : g.nodeIds.contains (f x).id
    · rw [ArtistGraph.addNode, if_pos hcx]
      exact hc
    · rw [ArtistGraph.addNode, if_neg hcx]
      show ((g.nodeIds ++ [(f x).id]).contains ra.id) = false
      simp only [hf x]
      simp at hc ⊢
      exact ⟨hc, fun h => hxne h.symm⟩

/-- Auxiliary: a fold of `addEdge` images leaves the node list untouched. -/
theorem foldl_addEdge_comp_nodes (h : Relationship → GraphEdge) :
    ∀ (es : List Relationship) (g : ArtistGraph),
      (es.foldl (fun gr rel => gr.addEdge (h rel)) g).nodes = g.nodes := by
  intro es
  induction es with
  | nil => intro g; rfl
  | cons e rest ih =>
    intro g
    rw [List.foldl_cons, ih, (addEdge_nodes g (h e)).1]

/-- Auxiliary: in the built graph, the first related artist carrying a given
id distinct from the root's gets exactly the node built for it. -/
theorem build_node_related (artist : Artist) (rels : List Relationship)
    (pre post : List Artist) (ra : Artist)
    (hfirst : ∀ x ∈ pre, x.id ≠ ra.id) (hne : ra.id ≠ artist.id) :
    (ArtistGraph.build artist rels (pre ++ ra :: post)).node ra.id =
      some (buildRelatedNode rels
        (getEarliestMemberYear rels (artist.lifeSpan.bind LifeSpan.begin)) ra) := by
  show ((rels.foldl (fun gr rel =>
      gr.addEdge (GraphEdge.ofRelationship rel
        (if formatTenure rel.begin rel.endDate = "" then none
         else some (formatTenure rel.begin rel.endDate))))
      ((pre ++ ra :: post).foldl (fun gr a =>
        gr.addNode (buildRelatedNode rels
          (getEarliestMemberYear rels (artist.lifeSpan.bind LifeSpan.begin)) a))
        (ArtistGraph.empty.addNode (GraphNode.ofArtist artist true false)))).node ra.id) = _
  rw [ArtistGraph.node, foldl_addEdge_comp_nodes, ← ArtistGraph.node]
  apply foldl_addNode_node_found
    (fun a => buildRelatedNode rels
      (getEarliestMemberYear rels (artist.lifeSpan.bind LifeSpan.begin)) a)
    (fun a => rfl) pre post ra _ _ hfirst
  · rw [empty_addNode]
    show ([(GraphNode.ofArtist artist true false).id].contains ra.id) = false
    simp [GraphNode.ofArtist, hne]
  · rw [empty_addNode]
    rfl

/-- C3: in the built graph, a related entity (at its first occurrence, with
an id distinct from the root's) is flagged `isFoundingMember` iff some
`member_of` relationship of the payload incident to it carries a
founder-like attribute or has a begin year equal to `earliestMemberYear`;
and `earliestMemberYear` is the minimum of the root's own begin year (the
9999 sentinel when that is unknown) and all parsed `member_of` begin years. -/
theorem founding_member_characterization (artist : Artist) (rels : List Relationship)
    (pre post : List Artist) (ra : Artist)
    (hfirst : ∀ x ∈ pre, x.id ≠ ra.id) (hne : ra.id ≠ artist.id) :
    ((ArtistGraph.build artist rels (pre ++ ra :: post)).node ra.id =
        some (buildRelatedNode rels
          (getEarliestMemberYear rels (artist.lifeSpan.bind LifeSpan.begin)) ra)) ∧
    ((buildRelatedNode rels
        (getEarliestMemberYear rels (artist.lifeSpan.bind LifeSpan.begin))
        ra).isFoundingMember = true ↔
      ∃ rel ∈ rels, (rel.targetArtistId = ra.id ∨ rel.sourceArtistId = ra.id) ∧
        rel.type = .memberOf ∧
        (rel.hasFounderAttr = true ∨
          parseYear rel.begin =
            some (getEarliestMemberYear rels (artist.lifeSpan.bind LifeSpan.begin)))) ∧
    (getEarliestMemberYear rels (artist.lifeSpan.bind LifeSpan.begin) ≤
        (parseYear (artist.lifeSpan.bind LifeSpan.begin)).getD 9999 ∧
      (∀ rel ∈ rels, rel.type = .memberOf → ∀ y : Int, parseYear rel.begin = some y →
        getEarliestMemberYear rels (artist.lifeSpan.bind LifeSpan.begin) ≤ y) ∧
      (getEarliestMemberYear rels (artist.lifeSpan.bind LifeSpan.begin) =
          (parseYear (artist.lifeSpan.bind LifeSpan.begin)).getD 9999 ∨
        ∃ rel ∈ rels, rel.type = .memberOf ∧
          parseYear rel.begin =
            some (getEarliestMemberYear rels (artist.lifeSpan.bind LifeSpan.begin)))) := by
  refine ⟨build_node_related artist rels pre post ra hfirst hne, ?_, ?_, ?_, ?_⟩
  · show (rels.any fun rel =>
      (rel.targetArtistId == ra.id || rel.sourceArtistId == ra.id) &&
        isFoundingMember rel
          (getEarliestMemberYear rels (artist.lifeSpan.bind LifeSpan.begin))) = true ↔ _
    simp only [List.any_eq_true, Bool.and_eq_true, Bool.or_eq_true, beq_iff_eq,
      isFoundingMember_iff]
  · exact gemFoldl_le_init rels _
  · intro rel hmem ht y hp
    exact gemFoldl_le_member rels _ rel y hmem ht hp
  · exact gemFoldl_cases rels _

/-- C3 witness: the spec §8 scenario A joined 1960, B joined 1960, C joined
1962 with no founder attribute — A's node is the built one and is flagged
founding, C's is not. -/
theorem founding_member_characterization_witness :
    Fixtures.artA.id ≠ Fixtures.bandX.id ∧
    ((ArtistGraph.build Fixtures.bandX Fixtures.relsABC
        ([] ++ Fixtures.artA :: [Fixtures.artB, Fixtures.artC])).node Fixtures.artA.id =
      some (buildRelatedNode Fixtures.relsABC
        (getEarliestMemberYear Fixtures.relsABC
          (Fixtures.bandX.lifeSpan.bind LifeSpan.begin)) Fixtures.artA)) ∧
    (buildRelatedNode Fixtures.relsABC
        (getEarliestMemberYear Fixtures.relsABC
          (Fixtures.bandX.lifeSpan.bind LifeSpan.begin))
        Fixtures.artA).isFoundingMember = true ∧
    ((ArtistGraph.build Fixtures.bandX Fixtures.relsABC
        ([] ++ Fixtures.artA :: [Fixtures.artB, Fixtures.artC])).node "b").map
      GraphNode.isFoundingMember = some true ∧
    ((ArtistGraph.build Fixtures.bandX Fixtures.relsABC
        ([] ++ Fixtures.artA :: [Fixtures.artB, Fixtures.artC])).node "c").map
      GraphNode.isFoundingMember = some false :=
  ⟨by decide,
   (founding_member_characterization Fixtures.bandX Fixtures.relsABC []
      [Fixtures.artB, Fixtures.artC] Fixtures.artA
      (fun x hx => absurd hx (List.not_mem_nil x)) (by decide)).1,
   by decide, by decide, by decide⟩

end FoundingCharacterization

section ExpansionDepths

open Web.Graph

/-- Auxiliary: `setIfAbsent` never overwrites an existing binding. -/
theorem lookup_setIfAbsent (m : List (String × Nat)) (k : String) (v : Nat)
    (x : String) (d : Nat) (h : m.lookup x = some d) :
    (setIfAbsent m k v).lookup x = some d := by
  unfold setIfAbsent
  by_cases hk : (m.lookup k).isSome
  · rw [if_pos hk]
    exact h
  · rw [if_neg hk]
    have hxk : x ≠ k := by
      intro he
      subst he
      rw [h] at hk
      exact hk rfl
    have hb : (x == k) = false := beq_eq_false_iff_ne.mpr hxk
    simp [List.lookup, hb]
    exact h

/-- Auxiliary: a fold of `setIfAbsent` updates never overwrites bindings. -/
theorem foldl_setIfAbsent_preserves (v : Nat) :
    ∀ (ns : List TNode) (m : List (String × Nat)) (x : String) (d : Nat),
      m.lookup x = some d →
      ((ns.foldl (fun acc n => setIfAbsent acc n.id v) m).lookup x = some d) := by
  intro ns
  induction ns with
  | nil => intro m x d h; exact h
  | cons n rest ih =>
    intro m x d h
    exact ih (setIfAbsent m n.id v) x d (lookup_setIfAbsent m n.id v x d h)

/-- Auxiliary: the inner frontier loop never overwrites a recorded depth. -/
theorem expandNodesAt_preserves (fB : String → Option TGraph) (level : Nat) :
    ∀ (ns : List TNode) (g : TGraph) (m : List (String × Nat)) (x : String) (d : Nat),
      m.lookup x = some d →
      ((expandNodesAt fB level g m ns).2.lookup x = some d) := by
  intro ns
  induction ns with
  | nil => intro g m x d h; exact h
  | cons node rest ih =>
    intro g m x d h
    rw [expandNodesAt]
    cases hfb : fB node.id with
    | none => exact ih g m x d h
    | some newGraph =>
      exact ih _ _ x d (foldl_setIfAbsent_preserves (level + 1) newGraph.nodes m x d h)

/-- Auxiliary: the level loop never overwrites a recorded depth. -/
theorem expandLevels_preserves (fB : String → Option TGraph) :
    ∀ (levelsLeft level : Nat) (g : TGraph) (m : List (String × Nat)) (x : String) (d : Nat),
      m.lookup x = some d →
      ((expandLevels fB level levelsLeft g m).2.lookup x = some d) := by
  intro levelsLeft
  induction levelsLeft with
  | zero => intro level g m x d h; exact h
  | succ rest ih =>
    intro level g m x d h
    rw [expandLevels]
    by_cases he : (Web.Graph.frontier g m level).isEmpty
    · rw [if_pos he]
      exact h
    · rw [if_neg he]
      exact ih (level + 1) _ _ x d (expandNodesAt_preserves fB level (Web.Graph.frontier g m level) g m x d h)

/-- Auxiliary: `setIfAbsent` records an unbound key. -/
theorem lookup_setIfAbsent_none (m : List (String × Nat)) (k : String) (v : Nat)
    (h : m.lookup k = none) : (setIfAbsent m k v).lookup k = some v := by
  unfold setIfAbsent
  rw [if_neg (by rw [h]; exact fun hc => Bool.false_ne_true hc)]
  simp [List.lookup]

/-- Auxiliary: a fold of `setIfAbsent` updates binds every previously
unbound listed id to the folded depth. -/
theorem foldl_setIfAbsent_records (v : Nat) :
    ∀ (ns : List TNode) (m : List (String × Nat)) (x : String),
      m.lookup x = none → x ∈ ns.map TNode.id →
      ((ns.foldl (fun acc n => setIfAbsent acc n.id v) m).lookup x = some v) := by
  intro ns
  induction ns with
  | nil => intro m x _ hmem; cases hmem
  | cons n rest ih =>
    intro m x hnone hmem
    by_cases hx : x = n.id
    · apply foldl_setIfAbsent_preserves v rest (setIfAbsent m n.id v) x v
      rw [hx]
      exact lookup_setIfAbsent_none m n.id v (hx ▸ hnone)
    · have hmem2 : x ∈ rest.map TNode.id := by
        rcases List.mem_cons.mp hmem with h | h
        · exact absurd h hx
        · exact h
      have hnone2 : (setIfAbsent m n.id v).lookup x = none := by
        unfold setIfAbsent
        by_cases hk : (m.lookup n.id).isSome
        · rw [if_pos hk]
          exact hnone
        · rw [if_neg hk]
          have hb : (x == n.id) = false := beq_eq_false_iff_ne.mpr hx
          simp only [List.lookup, hb]
          exact hnone
      exact ih (setIfAbsent m n.id v) x hnone2 hmem2

/-- C9: during one multi-level expansion, the node→depth map is populated
the first time a node is observed and never overwritten: any binding —
whether made by `initDepths` or mid-pass — survives the rest of the frontier
loop and all remaining levels; a node first observed (unbound) while
expanding a level-`L` frontier node is recorded at depth `L + 1` and keeps
that depth through the rest of the pass; the nodes expanded at level `L`
are exactly the graph's nodes with `loaded = false` whose recorded depth is
exactly `L`; and a level with an empty frontier stops the loop with graph
and depth map unchanged. -/
theorem expansion_depth_invariants (fB : String → Option TGraph) :
    (∀ (level : Nat) (ns : List TNode) (g : TGraph) (m : List (String × Nat))
        (x : String) (d : Nat),
      m.lookup x = some d →
      ((expandNodesAt fB level g m ns).2.lookup x = some d)) ∧
    (∀ (level levelsLeft : Nat) (g : TGraph) (m : List (String × Nat))
        (x : String) (d : Nat),
      m.lookup x = some d →
      ((expandLevels fB level levelsLeft g m).2.lookup x = some d)) ∧
    (∀ (depth : Nat) (initial : TGraph) (rootId : String) (x : String) (d : Nat),
      (initDepths rootId initial.nodes).lookup x = some d →
      ((performMultiLevelExpansion fB depth initial rootId).2.lookup x = some d)) ∧
    (∀ (level : Nat) (node : TNode) (rest : List TNode) (g : TGraph)
        (m : List (String × Nat)) (newGraph : TGraph) (x : String),
      fB node.id = some newGraph →
      m.lookup x = none →
      x ∈ newGraph.nodes.map TNode.id →
      ((expandNodesAt fB level g m (node :: rest)).2.lookup x = some (level + 1))) ∧
    (∀ (g : TGraph) (m : List (String × Nat)) (level : Nat) (n : TNode),
      n ∈ Web.Graph.frontier g m level ↔
        (n ∈ g.nodes ∧ n.loaded = false ∧ m.lookup n.id = some level)) ∧
    (∀ (level levelsLeft : Nat) (g : TGraph) (m : List (String × Nat)),
      Web.Graph.frontier g m level = [] →
      expandLevels fB level (levelsLeft + 1) g m = (g, m)) := by
  refine ⟨?_, ?_, ?_, ?_, ?_, ?_⟩
  · intro level ns g m x d h
    exact expandNodesAt_preserves fB level ns g m x d h
  · intro level levelsLeft g m x d h
    exact expandLevels_preserves fB levelsLeft level g m x d h
  · intro depth initial rootId x d h
    exact expandLevels_preserves fB (depth - 1) 1 initial (initDepths rootId initial.nodes) x d h
  · intro level node rest g m newGraph x hfb hnone hmem
    rw [expandNodesAt, hfb]
    exact expandNodesAt_preserves fB level rest _ _ x (level + 1)
      (foldl_setIfAbsent_records (level + 1) newGraph.nodes m x hnone hmem)
  · intro g m level n
    unfold Web.Graph.frontier
    rw [List.mem_filter]
    simp
  · intro level levelsLeft g m hf
    rw [expandLevels, if_pos (by rw [hf]; rfl)]

/-- C9 witness: a two-node depth-1 graph; the root's depth-0 binding
survives a depth-3 expansion with failing fetches; a fresh node `"t"`
delivered by the fetch of frontier node `"s"` at level 1 is recorded at
depth 2; and the frontier characterization holds at the unloaded node. -/
theorem expansion_depth_invariants_witness :
    ((initDepths "r" [⟨"r", "R", true⟩, ⟨"s", "S", false⟩]).lookup "r" = some 0) ∧
    ((performMultiLevelExpansion (fun _ => none) 3
        ⟨[⟨"r", "R", true⟩, ⟨"s", "S", false⟩], []⟩ "r").2.lookup "r" = some 0) ∧
    (((initDepths "r" [⟨"r", "R", true⟩, ⟨"s", "S", false⟩]).lookup "t" = none) ∧
      ((expandNodesAt (fun _ => some ⟨[⟨"t", "T", false⟩], []⟩) 1
          ⟨[⟨"r", "R", true⟩, ⟨"s", "S", false⟩], []⟩
          (initDepths "r" [⟨"r", "R", true⟩, ⟨"s", "S", false⟩])
          [⟨"s", "S", false⟩]).2.lookup "t" = some 2)) ∧
    ((⟨"s", "S", false⟩ : TNode) ∈
        Web.Graph.frontier ⟨[⟨"r", "R", true⟩, ⟨"s", "S", false⟩], []⟩
          (initDepths "r" [⟨"r", "R", true⟩, ⟨"s", "S", false⟩]) 1 ↔
      ((⟨"s", "S", false⟩ : TNode) ∈
          ([⟨"r", "R", true⟩, ⟨"s", "S", false⟩] : List TNode) ∧
        (⟨"s", "S", false⟩ : TNode).loaded = false ∧
        (initDepths "r" [⟨"r", "R", true⟩, ⟨"s", "S", false⟩]).lookup "s" = some 1)) :=
  ⟨by decide,
   (expansion_depth_invariants (fun _ => none)).2.2.1 3
     ⟨[⟨"r", "R", true⟩, ⟨"s", "S", false⟩], []⟩ "r" "r" 0 (by decide),
   ⟨by decide,
    (expansion_depth_invariants (fun _ => some ⟨[⟨"t", "T", false⟩], []⟩)).2.2.2.1 1
      ⟨"s", "S", false⟩ [] ⟨[⟨"r", "R", true⟩, ⟨"s", "S", false⟩], []⟩
      (initDepths "r" [⟨"r", "R", true⟩, ⟨"s", "S", false⟩])
      ⟨[⟨"t", "T", false⟩], []⟩ "t" rfl (by decide) (by decide)⟩,
   (expansion_depth_invariants (fun _ => none)).2.2.2.2.1
     ⟨[⟨"r", "R", true⟩, ⟨"s", "S", false⟩], []⟩
     (initDepths "r" [⟨"r", "R", true⟩, ⟨"s", "S", false⟩]) 1 ⟨"s", "S", false⟩⟩

end ExpansionDepths
